import Mathlib

/-!
Verification of the umami analytics query/aggregation engine against its
natural-language specification.  The definitions below are a shallow
embedding of the TypeScript sources: the connection pool and filter layer
in src/lib/clickhouse.ts, the pageview query router in
src/queries/analytics/pageviews/getPageviewStats.ts, the aggregation job
in src/scripts/aggregate-stats.ts, and the collection endpoint in
src/pages/api/send.ts.  Timestamps are modelled as natural numbers
(milliseconds since the epoch) and database tables as lists of rows.
-/

set_option autoImplicit false

namespace Umami

/-! ## ResourcePool (src/lib/clickhouse.ts, class ClickHousePool) -/

/-- A pooled ClickHouse client: the PoolClient interface of
clickhouse.ts keeps a last-used timestamp and an idle flag on each
client. -/
structure PoolClient where
  id : Nat
  lastUsed : Nat
  isIdle : Bool
  deriving DecidableEq, Repr

/-- Pool configuration (PoolConfig interface of clickhouse.ts). -/
structure PoolConfig where
  min : Nat
  max : Nat
  acquireTimeoutMillis : Nat
  idleTimeoutMillis : Nat
  reapIntervalMillis : Nat
  deriving DecidableEq, Repr

/-- One pass of ClickHousePool.reapIdleConnections, embedded faithfully:
the JavaScript body runs `this.clients = this.clients.filter(...)` and
inside the filter callback reads `this.clients.length`, which still
refers to the array as it was before the pass started, so the length
test compares the pre-pass count against the minimum for every element.
A client is kept unless `now - lastUsed > idleTimeoutMillis` and the
pre-pass count exceeds `min`; the isIdle flag is not consulted. -/
def reapIdleConnections (cfg : PoolConfig) (clients : List PoolClient) (now : Nat) :
    List PoolClient :=
  let n := clients.length
  clients.filter fun c =>
    !(decide (cfg.idleTimeoutMillis < now - c.lastUsed) && decide (cfg.min < n))

/-- Reap configuration used for the failing input of claim C5. -/
def reapCfgC5 : PoolConfig :=
  { min := 1, max := 10, acquireTimeoutMillis := 30000,
    idleTimeoutMillis := 30000, reapIntervalMillis := 1000 }

/-- Pool contents for the failing input of claim C5: the first client is
idle, the second is currently acquired (isIdle = false); both were last
stamped at time 0. -/
def reapClientsC5 : List PoolClient :=
  [{ id := 1, lastUsed := 0, isIdle := true },
   { id := 2, lastUsed := 0, isIdle := false }]

/-- C5: the claim states that a reaper pass closes only idle (not
currently acquired) connections and never lets the live count drop below
the configured minimum.  The code violates both parts at this input:
with min = 1 and two clients whose lastUsed is older than the idle
timeout, one of them busy, the pass closes both clients (the length
guard keeps comparing the pre-pass count 2 against min, and the busy
flag is never consulted), leaving an empty pool below the minimum. -/
theorem reap_closes_busy_and_drops_below_min :
    reapIdleConnections reapCfgC5 reapClientsC5 100000 = []
      ∧ (reapIdleConnections reapCfgC5 reapClientsC5 100000).length < reapCfgC5.min
      ∧ ∃ c ∈ reapClientsC5, c.isIdle = false
          ∧ c ∉ reapIdleConnections reapCfgC5 reapClientsC5 100000 := by
  decide

/-! ### acquire (ClickHousePool.acquire)

When no idle client exists and the pool is at its maximum, acquire waits
on a promise: a rejection timer fires after acquireTimeoutMillis, and a
poll callback checks for an idle client at time 0 and then every 100 ms.
A poll that finds an idle client before the timeout clears the timer and
resolves; otherwise the timer rejects with the timeout error.  After the
promise resolves the client is marked busy and its lastUsed stamped. -/

/-- The error thrown by acquire when the timeout elapses; the source
message is Timeout acquiring client, the specification calls this error
kind PoolExhausted. -/
inductive PoolError where
  | poolExhausted (elapsedMillis : Nat)
  deriving DecidableEq, Repr

/-- The times at which the poll callback of acquire runs: 0, 100, 200,
... as long as the poll happens strictly before the rejection timer at
timeoutMillis fires (a poll and the timer due at the same instant run
the timer first, since it was registered earlier). -/
def pollTimes (timeoutMillis : Nat) : List Nat :=
  (List.range ((timeoutMillis + 99) / 100)).map fun k => 100 * k

/-- The poll loop of acquire: the first poll time at which an idle
client is observed, together with that client.  The argument avail gives
the idle client found in this.clients at a given time, if any. -/
def pollForIdle (avail : Nat → Option PoolClient) (timeoutMillis : Nat) :
    Option (PoolClient × Nat) :=
  (pollTimes timeoutMillis).findSome? fun t => (avail t).map fun c => (c, t)

/-- The at-maximum branch of ClickHousePool.acquire: wait for an idle
client by polling; on success mark the client busy and stamp lastUsed
with the resolution time, on timeout fail with the pool-exhausted
error. -/
def acquireAtMax (avail : Nat → Option PoolClient) (timeoutMillis : Nat) :
    Except PoolError (PoolClient × Nat) :=
  match pollForIdle avail timeoutMillis with
  | some (c, t) => Except.ok ({ c with isIdle := false, lastUsed := t }, t)
  | none => Except.error (PoolError.poolExhausted timeoutMillis)

theorem mem_pollTimes {T t : Nat} (h : t ∈ pollTimes T) : t < T := by
  rcases List.mem_map.mp h with ⟨k, hk, rfl⟩
  have hk' : k + 1 ≤ (T + 99) / 100 := List.mem_range.mp hk
  have h1 : (k + 1) * 100 ≤ (T + 99) / 100 * 100 := Nat.mul_le_mul_right 100 hk'
  have h2 : (T + 99) / 100 * 100 ≤ T + 99 := Nat.div_mul_le_self (T + 99) 100
  omega

theorem pollTimes_mem {T k : Nat} (h : 100 * k < T) : 100 * k ∈ pollTimes T := by
  refine List.mem_map.mpr ⟨k, List.mem_range.mpr ?_, rfl⟩
  have h1 : (k + 1) * 100 ≤ T + 99 := by omega
  exact (Nat.le_div_iff_mul_le (by omega)).mpr h1

/-- C6: with the pool at its maximum and no idle client, acquire either
fails with the PoolExhausted error exactly when the configured timeout
elapses (never an indefinite block), or returns, strictly before the
timeout, a client that was observed idle at a poll instant, marked busy
and with its last-used time stamped; and whenever an idle client is
observable at some poll instant before the timeout, acquire succeeds. -/
theorem acquire_timeout_spec (avail : Nat → Option PoolClient) (T : Nat) :
    (acquireAtMax avail T = Except.error (PoolError.poolExhausted T)
        ∨ ∃ c t, acquireAtMax avail T = Except.ok (c, t) ∧ t < T
            ∧ c.isIdle = false ∧ c.lastUsed = t ∧ (avail t).isSome = true)
      ∧ ((∃ k, 100 * k < T ∧ (avail (100 * k)).isSome = true)
          → ∃ p, acquireAtMax avail T = Except.ok p) := by
  constructor
  · cases h : pollForIdle avail T with
    | none => exact Or.inl (by simp [acquireAtMax, h])
    | some p =>
      obtain ⟨c, t⟩ := p
      rcases List.exists_of_findSome?_eq_some h with ⟨a, ha, hfa⟩
      rcases Option.map_eq_some'.mp hfa with ⟨c', hc', heq⟩
      rw [Prod.mk.injEq] at heq
      obtain ⟨h1, h2⟩ := heq
      subst h1
      subst h2
      refine Or.inr ⟨{ c' with isIdle := false, lastUsed := a }, a, ?_,
        mem_pollTimes ha, rfl, rfl, ?_⟩
      · simp [acquireAtMax, h]
      · simp [hc']
  · rintro ⟨k, hk, hs⟩
    cases h : pollForIdle avail T with
    | some p =>
      obtain ⟨c, t⟩ := p
      exact ⟨({ c with isIdle := false, lastUsed := t }, t), by simp [acquireAtMax, h]⟩
    | none =>
      exfalso
      have hall := List.findSome?_eq_none_iff.mp h (100 * k) (pollTimes_mem hk)
      rw [Option.map_eq_none'] at hall
      rw [hall] at hs
      simp at hs

/-- Concrete availability schedule for the C6 witness: an idle client
appears at the poll instant 100 ms and at no other instant. -/
def availOne : Nat → Option PoolClient := fun t =>
  if t = 100 then some { id := 7, lastUsed := 0, isIdle := true } else none

/-- Witness for C6: with a 150 ms timeout and an idle client observable
at the 100 ms poll, acquire succeeds. -/
theorem acquire_timeout_spec_witness :
    (∃ k, 100 * k < 150 ∧ (availOne (100 * k)).isSome = true)
      ∧ ∃ p, acquireAtMax availOne 150 = Except.ok p :=
  ⟨⟨1, by decide⟩, (acquire_timeout_spec availOne 150).2 ⟨1, by decide⟩⟩

/-! ## findUnique and findFirst (src/lib/clickhouse.ts) -/

/-- findFirst of clickhouse.ts: the first element of the result list,
or null when the list is empty. -/
def findFirst {α : Type} (data : List α) : Option α :=
  data.head?

/-- findUnique of clickhouse.ts: throws when more than one record is
found, otherwise delegates to findFirst. -/
def findUnique {α : Type} (data : List α) : Except String (Option α) :=
  if 1 < data.length then
    Except.error (toString data.length ++ " records found when expecting 1.")
  else
    Except.ok (findFirst data)

/-- C9: findUnique errors exactly when the list holds more than one
element; a list of length 0 yields ok none and a singleton yields its
element. -/
theorem findUnique_spec {α : Type} (data : List α) :
    ((∃ e, findUnique data = Except.error e) ↔ 1 < data.length)
      ∧ (data.length = 0 → findUnique data = Except.ok none)
      ∧ ∀ a, data = [a] → findUnique data = Except.ok (some a) := by
  refine ⟨⟨?_, ?_⟩, ?_, ?_⟩
  · rintro ⟨e, he⟩
    by_contra hlen
    rw [findUnique, if_neg hlen] at he
    exact Except.noConfusion he
  · intro hlen
    exact ⟨_, by rw [findUnique, if_pos hlen]⟩
  · intro hlen
    have hnil : data = [] := List.length_eq_zero.mp hlen
    subst hnil
    rfl
  · intro a ha
    subst ha
    rfl

/-- Witness for C9 at the lists [], [5] and [1, 2]. -/
theorem findUnique_spec_witness :
    findUnique ([] : List Nat) = Except.ok none
      ∧ findUnique [5] = Except.ok (some 5)
      ∧ ∃ e, findUnique [1, 2] = Except.error e :=
  ⟨(findUnique_spec ([] : List Nat)).2.1 rfl,
   (findUnique_spec [5]).2.2 5 rfl,
   (findUnique_spec [1, 2]).1.mpr (by decide)⟩

/-! ## Collection endpoint (src/pages/api/send.ts) -/

/-- The REMOVE_TRAILING_SLASH rewrite of send.ts:
urlPath.replace(regex matching a character run followed by a final
slash, keeping the run).  It strips a final slash only when at least one
character precedes it, so a path of length one is left alone.  The model
assumes the path contains no newline, which the source regex dot class
would exclude from the kept run. -/
def stripTrailingSlash (s : String) : String :=
  if 2 ≤ s.data.length ∧ s.data.getLast? = some '/' then String.mk s.data.dropLast else s

/-- The urlPath computation of the event branch of the collect endpoint:
the decoded url (none when decoding produced no string) is split at the
first question mark, an empty or missing path is replaced by a single
slash, and the trailing-slash rewrite is applied when the
REMOVE_TRAILING_SLASH environment toggle is set. -/
def eventUrlPath (decoded : Option String) (removeSlash : Bool) : String :=
  let rawPath := match decoded with
    | none => ""
    | some s => (s.splitOn "?").headD ""
  let path := if rawPath = "" then "/" else rawPath
  if removeSlash then stripTrailingSlash path else path

theorem stripTrailingSlash_ne_empty {s : String} (h : s ≠ "") :
    stripTrailingSlash s ≠ "" := by
  unfold stripTrailingSlash
  split
  · rename_i hc
    intro he
    obtain ⟨h2, -⟩ := hc
    have hdata : s.data.dropLast = ([] : List Char) := congrArg String.data he
    have hlen := congrArg List.length hdata
    rw [List.length_dropLast, List.length_nil] at hlen
    omega
  · exact h

/-- C10: the urlPath stored for every accepted event-type request is
never empty: an empty or missing decoded path becomes a single slash,
and the trailing-slash rewrite never erases the last remaining
character. -/
theorem event_urlPath_nonempty (decoded : Option String) (removeSlash : Bool) :
    eventUrlPath decoded removeSlash ≠ "" := by
  unfold eventUrlPath
  have hpath : ∀ r : String, (if r = "" then "/" else r) ≠ "" := by
    intro r
    split
    · decide
    · assumption
  cases removeSlash
  · exact hpath _
  · exact stripTrailingSlash_ne_empty (hpath _)

/-- Session state carried by the collect endpoint: the session id, the
current visit id and the issued-at timestamp (seconds) of the previous
event. -/
structure SessionState where
  id : Nat
  visitId : Nat
  iat : Nat
  deriving DecidableEq, Repr

/-- The visit rotation step of the collect endpoint (send.ts): when the
previous issued-at timestamp is set and the gap to the current second
count exceeds 1800, the visit id is replaced by
uuid(session.id, visitSalt()); then iat is updated.  lib/crypto is not
part of src, so the freshly generated id is passed in as newVisitId. -/
def visitStep (s : SessionState) (iat : Nat) (newVisitId : Nat) : SessionState :=
  let s1 := if s.iat ≠ 0 ∧ 1800 < iat - s.iat then { s with visitId := newVisitId } else s
  { s1 with iat := iat }

/-- C8: for two consecutive events of one session, a gap above 1800
seconds rotates the visit id to a fresh one (distinct by the visit
rotation contract of the spec, since uuid and visitSalt live outside
src), while a gap of at most 1800 seconds leaves the visit id
unchanged. -/
theorem visit_boundary_spec (s : SessionState) (iat newVisitId : Nat)
    (hprev : s.iat ≠ 0) (hfresh : newVisitId ≠ s.visitId) :
    (1800 < iat - s.iat → (visitStep s iat newVisitId).visitId ≠ s.visitId)
      ∧ (iat - s.iat ≤ 1800 → (visitStep s iat newVisitId).visitId = s.visitId) := by
  constructor
  · intro hgap
    simp only [visitStep, if_pos (And.intro hprev hgap)]
    exact hfresh
  · intro hgap
    have hno : ¬(s.iat ≠ 0 ∧ 1800 < iat - s.iat) := by omega
    simp only [visitStep, if_neg hno]

/-- Witness for C8: a 1900 second gap rotates the visit id, a 1000
second gap preserves it. -/
theorem visit_boundary_spec_witness :
    (visitStep ⟨1, 10, 100⟩ 2000 99).visitId ≠ 10
      ∧ (visitStep ⟨1, 10, 1000⟩ 2000 99).visitId = 10 :=
  ⟨(visit_boundary_spec ⟨1, 10, 100⟩ 2000 99 (by decide) (by decide)).1 (by decide),
   (visit_boundary_spec ⟨1, 10, 1000⟩ 2000 99 (by decide) (by decide)).2 (by decide)⟩

/-! ## AggregationJob (src/scripts/aggregate-stats.ts)

The script reads sessions of a website created within a day range
together with their events, computes the daily metrics, and upserts one
websiteStats row keyed by (websiteId, startDate, daily).  Tables are
modelled as lists of rows and timestamps as milliseconds. -/

/-- A website_event row, restricted to the attributes the aggregation
job reads. -/
structure Event where
  sessionId : Nat
  websiteId : Nat
  eventType : Nat
  createdAt : Nat
  urlPath : String
  referrerDomain : Option String
  deriving DecidableEq, Repr

/-- A session row, restricted to the attributes the aggregation job
reads. -/
structure SessionRow where
  id : Nat
  websiteId : Nat
  createdAt : Nat
  device : Option String
  deriving DecidableEq, Repr

/-- The relational store the aggregation job reads from. -/
structure Db where
  sessions : List SessionRow
  events : List Event
  deriving DecidableEq, Repr

/-- Modelled from the spec: EVENT_TYPE.pageView of lib/constants is not
under src; the pageview event kind is the designated value 1, custom
events carry another value. -/
def pageViewType : Nat := 1

/-- The websiteEvent rows included with a session by the prisma
findMany call: every event whose sessionId equals the session id,
without any time or type restriction. -/
def sessionEvents (db : Db) (s : SessionRow) : List Event :=
  db.events.filter fun ev => ev.sessionId == s.id

/-- The sessions the job fetches: websiteId matches and createdAt lies
in the half-open range of the target day. -/
def sessionsInRange (db : Db) (wid startDate endDate : Nat) : List SessionRow :=
  db.sessions.filter fun ss =>
    ss.websiteId == wid && decide (startDate ≤ ss.createdAt) && decide (ss.createdAt < endDate)

/-- The events of a website with createdAt in the half-open range, as
selected by the groupBy where clauses of the job. -/
def eventsInRange (db : Db) (wid startDate endDate : Nat) : List Event :=
  db.events.filter fun ev =>
    ev.websiteId == wid && decide (startDate ≤ ev.createdAt) && decide (ev.createdAt < endDate)

/-- The pageview-type events of the range, the quantity the C7 claim
says the stored pageviews field equals. -/
def pageviewEventsInRange (db : Db) (wid startDate endDate : Nat) : List Event :=
  (eventsInRange db wid startDate endDate).filter fun ev => ev.eventType == pageViewType

/-- Device normalization of the job: lower-case the device string, with
a missing or empty value classified as unknown. -/
def normDevice : Option String → String
  | none => "unknown"
  | some d => if d.toLower = "" then "unknown" else d.toLower

/-- JavaScript object construction by repeated key assignment: a pair
whose key already exists replaces the stored value in place, a new key
is appended at the end. -/
def objInsert (m : List (String × Nat)) (k : String) (v : Nat) : List (String × Nat) :=
  if m.any fun p => p.1 == k then
    m.map fun p => if p.1 == k then (k, v) else p
  else m ++ [(k, v)]

/-- Folding a pair list into a JavaScript object, as the reduce calls of
the job do. -/
def buildObj (pairs : List (String × Nat)) : List (String × Nat) :=
  pairs.foldl (fun m p => objInsert m p.1 p.2) []

/-- Group-by counts over a list of keys. -/
def countByKey (keys : List String) : List (String × Nat) :=
  keys.dedup.map fun k => (k, keys.count k)

/-- Insertion into a count-descending list, used to model the orderBy
count desc of the urlPath groupBy. -/
def insertDesc (p : String × Nat) : List (String × Nat) → List (String × Nat)
  | [] => [p]
  | q :: rest => if q.2 < p.2 then p :: q :: rest else q :: insertDesc p rest

/-- Sort a count list descending by count. -/
def sortByCountDesc : List (String × Nat) → List (String × Nat)
  | [] => []
  | p :: rest => insertDesc p (sortByCountDesc rest)

/-- The urlData mapping of the job: per-urlPath counts of the events in
range, ordered by descending count, the top 100 kept, assembled into an
object. -/
def urlDataOf (db : Db) (wid startDate endDate : Nat) : List (String × Nat) :=
  let counts := countByKey ((eventsInRange db wid startDate endDate).map fun ev => ev.urlPath)
  buildObj ((sortByCountDesc counts).take 100)

/-- Mapping of a referrer-domain group key into the stored object key:
the JavaScript expression referrerDomain or direct replaces an empty
domain by the word direct (null domains were already excluded by the
query). -/
def referrerKey (d : String) : String :=
  if d = "" then "direct" else d

/-- The referrerData mapping of the job: per-referrerDomain counts of
the events in range whose domain is not null. -/
def referrerDataOf (db : Db) (wid startDate endDate : Nat) : List (String × Nat) :=
  let evs := (eventsInRange db wid startDate endDate).filter fun ev => ev.referrerDomain.isSome
  let counts := countByKey (evs.map fun ev => ev.referrerDomain.getD "")
  buildObj (counts.map fun p => (referrerKey p.1, p.2))

/-- The computed metric fields of one websiteStats row, shared verbatim
by the create and the update branch of the upsert in
aggregateWebsiteStats. -/
structure StatsMetrics where
  pageviews : Nat
  sessions : Nat
  uniqueVisitors : Nat
  desktopViews : Nat
  mobileViews : Nat
  tabletViews : Nat
  urlData : List (String × Nat)
  referrerData : List (String × Nat)
  deriving DecidableEq, Repr

/-- The metric computation of aggregateWebsiteStats: pageviews sums the
lengths of the included websiteEvent lists of the fetched sessions,
uniqueVisitors counts distinct session ids, the three device buckets
count sessions by normalized device string. -/
def computeStats (db : Db) (wid startDate endDate : Nat) : StatsMetrics :=
  let ss := sessionsInRange db wid startDate endDate
  { pageviews := (ss.map fun x => (sessionEvents db x).length).sum
  , sessions := ss.length
  , uniqueVisitors := (ss.map fun x => x.id).dedup.length
  , desktopViews := (ss.filter fun x => normDevice x.device == "desktop").length
  , mobileViews := (ss.filter fun x => normDevice x.device == "mobile").length
  , tabletViews := (ss.filter fun x => normDevice x.device == "tablet").length
  , urlData := urlDataOf db wid startDate endDate
  , referrerData := referrerDataOf db wid startDate endDate }

/-- A stored websiteStats row. -/
structure StatsRow where
  websiteId : Nat
  startDate : Nat
  endDate : Nat
  period : String
  metrics : StatsMetrics
  deriving DecidableEq, Repr

/-- The unique key of the upsert: websiteId, startDate and the daily
period. -/
def statsKeyMatch (wid startDate : Nat) (r : StatsRow) : Bool :=
  r.websiteId == wid && r.startDate == startDate && r.period == "daily"

/-- The prisma upsert of aggregateWebsiteStats: when a row with the key
exists its computed metric fields are replaced (the update branch sets
exactly the fields the create branch would, and does not touch endDate),
otherwise a full new row is inserted. -/
def upsertStats (store : List StatsRow) (wid startDate endDate : Nat) (m : StatsMetrics) :
    List StatsRow :=
  if store.any (statsKeyMatch wid startDate) then
    store.map fun r => if statsKeyMatch wid startDate r then { r with metrics := m } else r
  else
    store ++ [{ websiteId := wid, startDate := startDate, endDate := endDate,
                period := "daily", metrics := m }]

/-- aggregateWebsiteStats of the job: compute the metrics of the day
and upsert them under (websiteId, startDate, daily). -/
def aggregateWebsiteStats (db : Db) (store : List StatsRow) (wid startDate endDate : Nat) :
    List StatsRow :=
  upsertStats store wid startDate endDate (computeStats db wid startDate endDate)

/-- The stored metrics under a key, if any. -/
def lookupStats (store : List StatsRow) (wid startDate : Nat) : Option StatsMetrics :=
  (store.find? (statsKeyMatch wid startDate)).map fun r => r.metrics

theorem statsKeyMatch_set_metrics (wid startDate : Nat) (r : StatsRow) (m : StatsMetrics) :
    statsKeyMatch wid startDate { r with metrics := m } = statsKeyMatch wid startDate r := rfl

theorem upsertStats_any (store : List StatsRow) (wid startDate endDate : Nat)
    (m : StatsMetrics) :
    (upsertStats store wid startDate endDate m).any (statsKeyMatch wid startDate) = true := by
  unfold upsertStats
  split
  · rename_i h
    rcases List.any_eq_true.mp h with ⟨r, hr, hk⟩
    refine List.any_eq_true.mpr ⟨{ r with metrics := m }, ?_, ?_⟩
    · refine List.mem_map.mpr ⟨r, hr, ?_⟩
      rw [if_pos hk]
    · rw [statsKeyMatch_set_metrics]
      exact hk
  · refine List.any_eq_true.mpr ⟨_, List.mem_append_right store (List.mem_singleton.mpr rfl), ?_⟩
    simp [statsKeyMatch]

theorem upsertStats_mem (store : List StatsRow) (wid startDate endDate : Nat)
    (m : StatsMetrics) :
    ∀ r ∈ upsertStats store wid startDate endDate m,
      statsKeyMatch wid startDate r = false ∨ r.metrics = m := by
  unfold upsertStats
  split
  · intro r hr
    rcases List.mem_map.mp hr with ⟨r0, hr0, rfl⟩
    by_cases hk : statsKeyMatch wid startDate r0 = true
    · right
      rw [if_pos hk]
    · left
      rw [if_neg hk, Bool.eq_false_iff]
      exact hk
  · rename_i h
    intro r hr
    rcases List.mem_append.mp hr with hr | hr
    · left
      have hall := List.any_eq_false.mp (Bool.eq_false_iff.mpr h) r hr
      rw [Bool.eq_false_iff]
      exact hall
    · right
      rw [List.mem_singleton.mp hr]

theorem upsertStats_twice (store : List StatsRow) (wid startDate endDate : Nat)
    (m : StatsMetrics) :
    upsertStats (upsertStats store wid startDate endDate m) wid startDate endDate m
      = upsertStats store wid startDate endDate m := by
  have hany := upsertStats_any store wid startDate endDate m
  have hmem := upsertStats_mem store wid startDate endDate m
  conv_lhs => rw [upsertStats, if_pos hany]
  have hcongr : (upsertStats store wid startDate endDate m).map
      (fun r => if statsKeyMatch wid startDate r then { r with metrics := m } else r)
        = (upsertStats store wid startDate endDate m).map id := by
    refine List.map_congr_left ?_
    intro r hr
    rcases hmem r hr with hk | hm
    · rw [if_neg (by rw [hk]; exact Bool.false_ne_true), id]
    · by_cases hk : statsKeyMatch wid startDate r = true
      · rw [if_pos hk, ← hm, id]
      · rw [if_neg hk, id]
  rw [hcongr, List.map_id]

theorem lookupStats_upsert (store : List StatsRow) (wid startDate endDate : Nat)
    (m : StatsMetrics) :
    lookupStats (upsertStats store wid startDate endDate m) wid startDate = some m := by
  induction store with
  | nil =>
    simp [upsertStats, lookupStats, List.find?, statsKeyMatch]
  | cons r rest ih =>
    by_cases hk : statsKeyMatch wid startDate r = true
    · have hany : (r :: rest).any (statsKeyMatch wid startDate) = true :=
        List.any_eq_true.mpr ⟨r, List.mem_cons_self r rest, hk⟩
      rw [upsertStats, if_pos hany, List.map_cons, if_pos hk, lookupStats, List.find?]
      rw [statsKeyMatch_set_metrics, hk]
      rfl
    · have hanyc : (r :: rest).any (statsKeyMatch wid startDate)
          = rest.any (statsKeyMatch wid startDate) := by
        rw [List.any_cons, Bool.eq_false_iff.mpr hk, Bool.false_or]
      by_cases hrest : rest.any (statsKeyMatch wid startDate) = true
      · rw [upsertStats, if_pos (hanyc.trans hrest), List.map_cons, if_neg hk,
          lookupStats, List.find?, Bool.eq_false_iff.mpr hk]
        have ih' := ih
        rw [upsertStats, if_pos hrest] at ih'
        exact ih'
      · have hfalse : (r :: rest).any (statsKeyMatch wid startDate) ≠ true := by
          rw [hanyc]
          exact hrest
        rw [upsertStats, if_neg hfalse, List.cons_append, lookupStats, List.find?,
          Bool.eq_false_iff.mpr hk]
        have ih' := ih
        rw [upsertStats, if_neg hrest] at ih'
        exact ih'

/-- C4: running the aggregation step twice for the same website and day
over the same raw data leaves the same stored rollup row as running it
once, and the stored metrics under the key always equal the freshly
computed values: the update branch fully replaces every computed metric
with exactly the values the create branch would write, never
incrementing. -/
theorem aggregate_idempotent (db : Db) (store : List StatsRow) (wid startDate endDate : Nat) :
    aggregateWebsiteStats db (aggregateWebsiteStats db store wid startDate endDate)
        wid startDate endDate
      = aggregateWebsiteStats db store wid startDate endDate
      ∧ lookupStats (aggregateWebsiteStats db store wid startDate endDate) wid startDate
        = some (computeStats db wid startDate endDate) :=
  ⟨upsertStats_twice store wid startDate endDate (computeStats db wid startDate endDate),
   lookupStats_upsert store wid startDate endDate (computeStats db wid startDate endDate)⟩

theorem device_bucket_once (x : SessionRow) :
    (if normDevice x.device == "desktop" then 1 else 0)
      + (if normDevice x.device == "mobile" then 1 else 0)
      + (if normDevice x.device == "tablet" then 1 else 0)
      + (if x.device.isNone then 1 else 0) ≤ 1 := by
  cases hd : x.device with
  | none => simp [normDevice]
  | some d =>
    simp only [Option.isNone_some, Bool.false_eq_true, if_false, Nat.add_zero, beq_iff_eq]
    rcases eq_or_ne (normDevice (some d)) "desktop" with h1 | h1
    · simp [h1]
    · rcases eq_or_ne (normDevice (some d)) "mobile" with h2 | h2
      · simp [h2]
      · rcases eq_or_ne (normDevice (some d)) "tablet" with h3 | h3
        · simp [h3]
        · simp [h1, h2, h3]

theorem device_buckets_le (l : List SessionRow) :
    (l.filter fun x => normDevice x.device == "desktop").length
      + (l.filter fun x => normDevice x.device == "mobile").length
      + (l.filter fun x => normDevice x.device == "tablet").length
      + (l.filter fun x => x.device.isNone).length
      ≤ l.length := by
  induction l with
  | nil => simp
  | cons x rest ih =>
    have hx := device_bucket_once x
    simp only [List.filter_cons, apply_ite List.length, List.length_cons]
    split_ifs at hx ⊢ <;> omega

/-- C7 amended: the stored pageviews field equals the total number of
events attached by session id to the sessions created in the range,
regardless of event type or event timestamp (not the count of
pageview-type events of the range); uniqueVisitors counts distinct
session ids of the range; a missing device normalizes to unknown, and
the desktop, mobile and tablet buckets together with the
missing-device sessions never exceed the session count, so a
missing-device session is counted in none of the three buckets. -/
theorem aggregation_metrics_spec (db : Db) (wid startDate endDate : Nat) :
    (computeStats db wid startDate endDate).pageviews
        = ((sessionsInRange db wid startDate endDate).map
            fun x => (sessionEvents db x).length).sum
      ∧ (computeStats db wid startDate endDate).uniqueVisitors
        = ((sessionsInRange db wid startDate endDate).map fun x => x.id).dedup.length
      ∧ normDevice none = "unknown"
      ∧ (computeStats db wid startDate endDate).desktopViews
          + (computeStats db wid startDate endDate).mobileViews
          + (computeStats db wid startDate endDate).tabletViews
          + ((sessionsInRange db wid startDate endDate).filter
              fun x => x.device.isNone).length
        ≤ (sessionsInRange db wid startDate endDate).length :=
  ⟨rfl, rfl, rfl, device_buckets_le (sessionsInRange db wid startDate endDate)⟩

/-- Raw data for the C7 counterexample: one session created inside the
day range owning one custom (non-pageview) event. -/
def dbC7 : Db :=
  { sessions := [{ id := 1, websiteId := 1, createdAt := 5, device := none }]
  , events := [{ sessionId := 1, websiteId := 1, eventType := 2, createdAt := 5,
                 urlPath := "/", referrerDomain := none }] }

/-- C7 counterexample: the stored pageviews field is 1 although the
range holds no pageview-type event at all, refuting the claim that
pageviews equals the count of pageview-type events in the range. -/
theorem aggregation_pageviews_not_pageview_count :
    (computeStats dbC7 1 0 10).pageviews = 1
      ∧ (pageviewEventsInRange dbC7 1 0 10).length = 0 := by
  constructor
  · rfl
  · rfl

/-! ## The batch loop of main (src/scripts/aggregate-stats.ts)

The for loop of main processes the websites one after another; there is
no per-website try/catch: the only try/catch wraps the whole loop, logs
the error and rethrows it, so the first failing website ends the run. -/

/-- The per-website loop of main: agg is the combined
aggregate-and-delete step of one website; the result is the list of
websites whose step was invoked, paired with the error (if any) that
escaped the batch. -/
def mainRun {W E : Type} (agg : W → Except E Unit) : List W → List W × Option E
  | [] => ([], none)
  | w :: ws =>
    match agg w with
    | Except.ok _ =>
      let r := mainRun agg ws
      (w :: r.1, r.2)
    | Except.error err => ([w], some err)

/-- Aggregation step for the C1 counterexample: website 0 fails, every
other website would succeed. -/
def aggC1 : Nat → Except String Unit := fun w =>
  if w = 0 then Except.error "backend failure" else Except.ok ()

/-- C1 counterexample: with two websites of which the first fails, the
batch stops after the first website (website 1 is never processed), and
the error escapes the batch instead of being recorded per website. -/
theorem batch_not_isolated :
    mainRun aggC1 [0, 1] = ([0], some "backend failure")
      ∧ (mainRun aggC1 [0, 1]).1 ≠ [0, 1] := by
  constructor
  · rfl
  · decide

/-- C1 amended: a failure in one website aggregation step aborts the
batch: the websites before the first failing one are processed, the
failing step throws, its error escapes past the batch boundary, and no
later website is processed. -/
theorem batch_aborts_at_first_failure {W E : Type} (agg : W → Except E Unit)
    (ws1 ws2 : List W) (w : W) (err : E)
    (hok : ∀ x ∈ ws1, agg x = Except.ok ())
    (hfail : agg w = Except.error err) :
    mainRun agg (ws1 ++ w :: ws2) = (ws1 ++ [w], some err) := by
  induction ws1 with
  | nil =>
    rw [List.nil_append, mainRun, hfail]
    rfl
  | cons x rest ih =>
    have hx := hok x (List.mem_cons_self x rest)
    have ih' := ih fun y hy => hok y (List.mem_cons_of_mem x hy)
    rw [List.cons_append, mainRun, hx, ih']
    rfl

/-- Witness for the amended C1: a three-website batch whose middle
website fails processes exactly the first two websites. -/
theorem batch_aborts_at_first_failure_witness :
    mainRun aggC1 [2, 0, 1] = ([2, 0], some "backend failure") :=
  batch_aborts_at_first_failure aggC1 [2] [1] 0 "backend failure"
    (by intro x hx; rw [List.mem_singleton.mp hx]; rfl) rfl

/-! ## FilterTranslator and QueryRouter
(src/lib/clickhouse.ts parseFilters and
src/queries/analytics/pageviews/getPageviewStats.ts) -/

/-- Milliseconds per day. -/
def msPerDay : Nat := 86400000

/-- startOfDay of date-fns, on epoch milliseconds. -/
def startOfDay (t : Nat) : Nat := t - t % msPerDay

/-- endOfDay of date-fns, on epoch milliseconds: the last millisecond
of the day of t. -/
def endOfDay (t : Nat) : Nat := startOfDay t + (msPerDay - 1)

/-- A website row as the filter translator reads it: domain and reset
timestamp. -/
structure Website where
  domain : String
  resetAt : Nat
  deriving DecidableEq, Repr

/-- Modelled from the spec: maxDate of lib/date is not under src; per
the spec the effective start date is the later of the requested start
date and the website reset timestamp. -/
def maxDate (a b : Nat) : Nat := max a b

/-- The startDate parameter produced by parseFilters of clickhouse.ts:
maxDate of the requested start and the website resetAt. -/
def parseFiltersStartDate (requestedStart : Nat) (website : Website) : Nat :=
  maxDate requestedStart website.resetAt

/-- Modelled from the spec: EVENT_COLUMNS of lib/constants is not under
src; the spec describes the raw-event-only dimensions as the browser,
OS, device and country breakdowns. -/
def EVENT_COLUMNS : List String := ["browser", "os", "device", "country"]

/-- The event-column test of clickhouseQuery: some event column occurs
among the filter keys. -/
def hasEventColumnFilter (filterKeys : List String) : Bool :=
  EVENT_COLUMNS.any fun c => filterKeys.contains c

/-- The three data sources a pageview-stats query can be answered
from. -/
inductive DataSource where
  | rollup
  | rawEvents
  | hourlyRollup
  deriving DecidableEq, Repr

/-- The data-source decision of relationalQuery in getPageviewStats.ts:
the aggregated websiteStats table is consulted whenever the unit is day
— the filter keys are never inspected on this path — and used whenever
it returned rows; otherwise the detailed website_event query runs. -/
def relationalRoute (unit : String) (filterKeys : List String) (rollupHasRows : Bool) :
    DataSource :=
  if unit = "day" ∧ rollupHasRows = true then DataSource.rollup else DataSource.rawEvents

/-- The data-source decision of clickhouseQuery in getPageviewStats.ts:
the aggregated table is consulted only when the unit is day and no
filter key is an event column; on fallback a raw website_event scan
runs when an event-column filter is present or the unit is minute,
else the hourly rollup table is scanned. -/
def clickhouseRoute (unit : String) (filterKeys : List String) (rollupHasRows : Bool) :
    DataSource :=
  if unit = "day" ∧ hasEventColumnFilter filterKeys = false ∧ rollupHasRows = true then
    DataSource.rollup
  else if hasEventColumnFilter filterKeys = true ∨ unit = "minute" then
    DataSource.rawEvents
  else
    DataSource.hourlyRollup

/-- C3: the claim states that both code paths answer from the rollup
only when the unit is day and no event-column filter is present.  The
relational path violates this: with a browser filter and day unit it
still answers from the rollup (its condition never looks at the
filters), while the columnar path correctly falls back to the raw
scan. -/
theorem relational_rollup_ignores_filters :
    relationalRoute "day" ["browser"] true = DataSource.rollup
      ∧ hasEventColumnFilter ["browser"] = true
      ∧ clickhouseRoute "day" ["browser"] true = DataSource.rawEvents := by
  decide

/-- Insertion into a list ascending in the first component. -/
def insertAscBy (p : Nat × Nat) : List (Nat × Nat) → List (Nat × Nat)
  | [] => [p]
  | q :: rest => if p.1 ≤ q.1 then p :: q :: rest else q :: insertAscBy p rest

/-- Sort a series ascending by bucket time, as the orderBy startDate
asc of the aggregated read and the order by of the scans do. -/
def sortByFirstAsc : List (Nat × Nat) → List (Nat × Nat)
  | [] => []
  | p :: rest => insertAscBy p (sortByFirstAsc rest)

/-- The websiteStats rows read by the aggregated-data branch of
getPageviewStats: daily rows of the website whose startDate lies
between the start of the requested start day and the end of the
requested end day, ordered ascending and mapped to
(startDate, pageviews) pairs.  The website reset timestamp is not
consulted on this path. -/
def rollupPageviewRead (store : List StatsRow) (wid s e : Nat) : List (Nat × Nat) :=
  sortByFirstAsc ((store.filter fun r =>
      r.websiteId == wid && r.period == "daily"
        && decide (startOfDay s ≤ r.startDate)
        && decide (r.startDate ≤ endOfDay e)).map
    fun r => (r.startDate, r.metrics.pageviews))

/-- The events selected by the detailed pageview scan: website matches,
created_at between the effective start parameter and the requested end,
and the event type is pageview. -/
def scanEvents (events : List Event) (wid effStart e : Nat) : List Event :=
  events.filter fun ev =>
    ev.websiteId == wid && decide (effStart ≤ ev.createdAt)
      && decide (ev.createdAt ≤ e) && ev.eventType == pageViewType

/-- Day bucketing of the detailed scan: group the selected events by
the start of their day, count each group, ascending by bucket. -/
def dayBucketCounts (evs : List Event) : List (Nat × Nat) :=
  sortByFirstAsc (((evs.map fun ev => startOfDay ev.createdAt).dedup).map
    fun k => (k, (evs.filter fun ev => startOfDay ev.createdAt == k).length))

/-- The detailed day-unit pageview scan with the parseFilters effective
start.  lib/prisma parseFilters is not under src; the spec states the
relational and columnar filter translations behave identically, and the
columnar parseFilters of clickhouse.ts applies the resetAt clamp. -/
def directScanPageviews (events : List Event) (website : Website) (wid s e : Nat) :
    List (Nat × Nat) :=
  dayBucketCounts (scanEvents events wid (parseFiltersStartDate s website) e)

/-- The day-unit branch of relationalQuery of getPageviewStats.ts: try
the aggregated websiteStats read, return its rows when any exist, else
run the detailed scan. -/
def relationalPageviewStatsDaily (store : List StatsRow) (events : List Event)
    (website : Website) (wid s e : Nat) : List (Nat × Nat) :=
  let agg := rollupPageviewRead store wid s e
  if 0 < agg.length then agg else directScanPageviews events website wid s e

/-- Website for the C2 counterexample: reset at the start of day 2. -/
def websiteC2 : Website := { domain := "example.com", resetAt := 2 * msPerDay }

/-- Rollup store for the C2 counterexample: one pre-reset daily row at
bucket 0. -/
def storeC2 : List StatsRow :=
  [{ websiteId := 1, startDate := 0, endDate := msPerDay - 1, period := "daily",
     metrics := { pageviews := 5, sessions := 3, uniqueVisitors := 3, desktopViews := 1,
                  mobileViews := 1, tabletViews := 1, urlData := [], referrerData := [] } }]

/-- C2 counterexample: for a website reset at day 2, a day-unit query
with requested start 0 (before the reset) returns the pre-reset rollup
bucket 0: the aggregated-read branch bounds rows by the requested start
only and never consults resetAt, so the effective start of this path is
not max of start and reset. -/
theorem reset_clamp_missing_on_rollup_path :
    relationalPageviewStatsDaily storeC2 [] websiteC2 1 0 (3 * msPerDay) = [(0, 5)]
      ∧ (0 : Nat) < websiteC2.resetAt := by
  constructor
  · rfl
  · decide

theorem mem_insertAscBy {p q : Nat × Nat} {l : List (Nat × Nat)} :
    q ∈ insertAscBy p l ↔ q = p ∨ q ∈ l := by
  induction l with
  | nil => simp [insertAscBy]
  | cons r rest ih =>
    rw [insertAscBy]
    split
    · simp
    · rw [List.mem_cons, ih, List.mem_cons]
      tauto

theorem mem_sortByFirstAsc {q : Nat × Nat} {l : List (Nat × Nat)} :
    q ∈ sortByFirstAsc l ↔ q ∈ l := by
  induction l with
  | nil => simp [sortByFirstAsc]
  | cons r rest ih =>
    rw [sortByFirstAsc, mem_insertAscBy, ih, List.mem_cons]

theorem startOfDay_mono {a b : Nat} (h : a ≤ b) : startOfDay a ≤ startOfDay b := by
  have ha := Nat.div_add_mod a msPerDay
  have hb := Nat.div_add_mod b msPerDay
  have hdiv : a / msPerDay ≤ b / msPerDay := Nat.div_le_div_right h
  have hmul : msPerDay * (a / msPerDay) ≤ msPerDay * (b / msPerDay) :=
    Nat.mul_le_mul_left msPerDay hdiv
  unfold startOfDay
  omega

/-- C2 amended: the detailed-scan path clamps to the reset timestamp —
its effective start parameter is max of the requested start and
resetAt, every event it counts lies at or after the reset and every
bucket it emits at or after the day of the clamped start — while the
daily-rollup read bounds its buckets below only by the start of the
requested day, independent of resetAt. -/
theorem effective_start_date_spec (store : List StatsRow) (events : List Event)
    (website : Website) (wid s e : Nat) :
    parseFiltersStartDate s website = max s website.resetAt
      ∧ (∀ ev ∈ scanEvents events wid (parseFiltersStartDate s website) e,
          website.resetAt ≤ ev.createdAt)
      ∧ (∀ p ∈ directScanPageviews events website wid s e,
          startOfDay (max s website.resetAt) ≤ p.1)
      ∧ (∀ p ∈ rollupPageviewRead store wid s e,
          startOfDay s ≤ p.1 ∧ p.1 ≤ endOfDay e) := by
  refine ⟨rfl, ?_, ?_, ?_⟩
  · intro ev hev
    have hcond := (List.mem_filter.mp hev).2
    simp only [Bool.and_eq_true, decide_eq_true_eq] at hcond
    exact le_trans (le_max_right s website.resetAt) hcond.1.1.2
  · intro p hp
    rw [directScanPageviews, dayBucketCounts, mem_sortByFirstAsc] at hp
    rcases List.mem_map.mp hp with ⟨k, hk, rfl⟩
    rcases List.mem_map.mp (List.mem_dedup.mp hk) with ⟨ev, hev, rfl⟩
    have hcond := (List.mem_filter.mp hev).2
    simp only [Bool.and_eq_true, decide_eq_true_eq] at hcond
    exact startOfDay_mono hcond.1.1.2
  · intro p hp
    rw [rollupPageviewRead, mem_sortByFirstAsc] at hp
    rcases List.mem_map.mp hp with ⟨r, hr, rfl⟩
    have hcond := (List.mem_filter.mp hr).2
    simp only [Bool.and_eq_true, decide_eq_true_eq] at hcond
    exact ⟨hcond.1.2, hcond.2⟩

/-- Event list for the C2 witness: one pageview shortly after the
reset. -/
def eventsC2 : List Event :=
  [{ sessionId := 1, websiteId := 1, eventType := 1, createdAt := 2 * msPerDay + 5,
     urlPath := "/", referrerDomain := none }]

/-- Witness for the amended C2: the clamp identity at the concrete
query, and the concrete scanned event lies after the reset. -/
theorem effective_start_date_spec_witness :
    parseFiltersStartDate 0 websiteC2 = max 0 websiteC2.resetAt
      ∧ websiteC2.resetAt ≤ 2 * msPerDay + 5 :=
  ⟨(effective_start_date_spec storeC2 eventsC2 websiteC2 1 0 (3 * msPerDay)).1,
   (effective_start_date_spec storeC2 eventsC2 websiteC2 1 0 (3 * msPerDay)).2.1
     { sessionId := 1, websiteId := 1, eventType := 1, createdAt := 2 * msPerDay + 5,
       urlPath := "/", referrerDomain := none } (by decide)⟩

end Umami
